import Mathlib

/-!
Verification development for `currency-privat.py`: a shallow embedding of the
PrivatBank currency-rates fetching program.

The program has three layers:
* `PrivatBankCurrencyRatesFetcher.fetch_rates` / `_parse_response` — one HTTP
  request per date, parsing the provider JSON into the shared data model;
* `CurrencyRatesService.get_rates_for_days` — date-range generation, concurrent
  dispatch via `asyncio.gather`, filtering of empty per-date results;
* thin CLI glue (out of scope).

Machine-level modelling choices:
* Python values arriving from `json.loads` are modelled by the inductive `Json`
  (JSON null / bool / number / string / array / object).
* Python exceptions are modelled with `Except PyError`: an expression that
  raises is `.error e`, a normal return is `.ok v`.
* The network is abstracted by a `Response` value per request: either an
  `aiohttp.ClientError` was raised (connection failure, non-2xx status via
  `raise_for_status`, or content-type mismatch in `response.json()`), or the
  body had a JSON content type but failed `json.loads` (raising
  `json.JSONDecodeError`, a subclass of `ValueError`), or a parsed JSON value.
* `datetime.now() - timedelta(days=i)` followed by `strftime("%d.%m.%Y")` is
  modelled by a Gregorian calendar triple, an explicit previous-day function
  iterated `i` times, and a zero-padded day/month plus decimal-year formatter.
-/

namespace Privat

/-- A parsed JSON value, as produced by `json.loads` (Python dicts keep
insertion order and have unique keys). -/
inductive Json where
  | null : Json
  | bool (b : Bool) : Json
  | num (q : Rat) : Json
  | str (s : String) : Json
  | arr (elems : List Json) : Json
  | obj (fields : List (String × Json)) : Json

/-- The Python exceptions that can escape the code under study. -/
inductive PyError where
  | valueError (msg : String) : PyError
  | typeError (msg : String) : PyError
  | attributeError (msg : String) : PyError

/-- One network interaction of `fetch_rates`, abstracting `aiohttp`:
`clientError` is any `aiohttp.ClientError` raised while requesting, by
`response.raise_for_status()`, or by the content-type check in
`response.json()`; `badJsonBody` is a 2xx response with a JSON content type
whose body fails `json.loads` (raising `json.JSONDecodeError ⊆ ValueError`);
`jsonBody` is a successfully parsed body. -/
inductive Response where
  | clientError (msg : String) : Response
  | badJsonBody (msg : String) : Response
  | jsonBody (v : Json) : Response

/-- The per-currency record `{"sale": rate.get("saleRate"), "purchase":
rate.get("purchaseRate")}` built by `_parse_response`; `Json.null` is Python
`None`. -/
structure RateRecord where
  sale : Json
  purchase : Json

/-- The dict returned by one `fetch_rates` call: `{date: {currency: record}}`
or `{}`.  Python dicts are modelled as insertion-ordered association lists. -/
abbrev DailyRates : Type := List (String × List (String × RateRecord))

/-- Python `d.get(k, dflt)` on a dict: the stored value, or the default for an
absent key. -/
def pyDictGetD (fields : List (String × Json)) (k : String) (dflt : Json) :
    Json :=
  match fields with
  | [] => dflt
  | p :: ps => if p.1 = k then p.2 else pyDictGetD ps k dflt

/-- Python `d.get(k)` on a dict (default `None`): the stored value, or `None`
for an absent key. -/
def pyDictGet (fields : List (String × Json)) (k : String) : Json :=
  pyDictGetD fields k Json.null

/-- Python `for x in v`: lists yield their elements, dicts their keys (in
insertion order), strings their characters; other JSON values raise
`TypeError`. -/
def pyIter (v : Json) : Except PyError (List Json) :=
  match v with
  | Json.arr elems => Except.ok elems
  | Json.obj fields => Except.ok (fields.map (fun p => Json.str p.1))
  | Json.str s => Except.ok (s.data.map (fun c => Json.str (String.mk [c])))
  | _ => Except.error (PyError.typeError "argument is not iterable")

/-- The test `rate.get("currency") in ["EUR", "USD"]`: only the exact strings
compare equal. -/
def isEurUsd (v : Json) : Bool :=
  match v with
  | Json.str c => c == "EUR" || c == "USD"
  | _ => false

/-- The record literal built for a kept entry: `saleRate` / `purchaseRate`
fetched with `dict.get`, so an absent field stays `None`. -/
def recordOf (fields : List (String × Json)) : RateRecord :=
  ⟨pyDictGet fields "saleRate", pyDictGet fields "purchaseRate"⟩

/-- Python dict assignment `m[k] = v`: an existing key keeps its position and
gets the new value, a new key is appended. -/
def dictInsert : List (String × RateRecord) → String → RateRecord →
    List (String × RateRecord)
  | [], k, v => [(k, v)]
  | p :: ps, k, v => if p.1 = k then (k, v) :: ps else p :: dictInsert ps k v

/-- Lookup in the accumulated `rates` dict. -/
def dictFind : List (String × RateRecord) → String → Option RateRecord
  | [], _ => none
  | p :: ps, k => if p.1 = k then some p.2 else dictFind ps k

/-- One iteration of the `for rate in data.get("exchangeRate", [])` loop body:
`rate.get` requires `rate` to be a dict (anything else raises
`AttributeError`); a matching currency stores `recordOf` under the currency
string, anything else leaves `rates` unchanged. -/
def processEntry (rates : List (String × RateRecord)) (rate : Json) :
    Except PyError (List (String × RateRecord)) :=
  match rate with
  | Json.obj fields =>
      match pyDictGet fields "currency" with
      | Json.str c =>
          if c == "EUR" || c == "USD" then
            Except.ok (dictInsert rates c (recordOf fields))
          else
            Except.ok rates
      | _ => Except.ok rates
  | _ => Except.error (PyError.attributeError "no attribute get")

/-- The `for` loop of `_parse_response` run from an intermediate `rates`
state. -/
def parseEntriesFrom (rates : List (String × RateRecord)) :
    List Json → Except PyError (List (String × RateRecord))
  | [] => Except.ok rates
  | e :: rest =>
      match processEntry rates e with
      | Except.error err => Except.error err
      | Except.ok rates' => parseEntriesFrom rates' rest

/-- The whole loop of `_parse_response`, starting from `rates = {}`. -/
def parseEntries (entries : List Json) :
    Except PyError (List (String × RateRecord)) :=
  parseEntriesFrom [] entries

/-- Whether a JSON value is an object (a Python dict, the only values with a
`.get` attribute). -/
def isObj : Json → Bool
  | Json.obj _ => true
  | _ => false

/-- The fields of `e` when `e` is an object entry whose `currency` value is
exactly the string `c`, i.e. when the loop body would store a record under
key `c` for this entry. -/
def matchesCurrency (c : String) (e : Json) : Option (List (String × Json)) :=
  match e with
  | Json.obj fs =>
      match pyDictGet fs "currency" with
      | Json.str s => if s = c then some fs else none
      | _ => none
  | _ => none

/-- The predicate deciding whether the loop body keeps an entry: object
entries are kept exactly when their `currency` is the string `"EUR"` or
`"USD"`; non-object entries are retained here because they raise on both
sides. -/
def keptEntry (e : Json) : Bool :=
  match e with
  | Json.obj fs => isEurUsd (pyDictGet fs "currency")
  | _ => true

/-- The fields of the last entry of the array whose `currency` is `c` (later
entries take priority). -/
def lastMatch (c : String) : List Json → Option (List (String × Json))
  | [] => none
  | e :: rest =>
      match lastMatch c rest with
      | some fs => some fs
      | none => matchesCurrency c e

/-- `PrivatBankCurrencyRatesFetcher._parse_response(data, date)`:
`data.get("exchangeRate", [])` (raising `AttributeError` when `data` is not a
dict), the currency-filtering loop, then `{date: rates} if rates else {}`. -/
def parse_response (data : Json) (date : String) : Except PyError DailyRates :=
  match data with
  | Json.obj fields =>
      let ex := pyDictGetD fields "exchangeRate" (Json.arr [])
      match pyIter ex with
      | Except.error e => Except.error e
      | Except.ok entries =>
          match parseEntries entries with
          | Except.error e => Except.error e
          | Except.ok rates =>
              if rates.isEmpty then Except.ok [] else Except.ok [(date, rates)]
  | _ => Except.error (PyError.attributeError "no attribute get")

/-- `PrivatBankCurrencyRatesFetcher.fetch_rates(date)` given the network's
behaviour for this request.  The `try` block catches `aiohttp.ClientError`
only: such errors are printed and become `{}`; a `json.JSONDecodeError` from
`response.json()` (a `ValueError`) and the dynamic-type errors raised inside
`_parse_response` are not caught and propagate. -/
def fetch_rates (resp : Response) (date : String) : Except PyError DailyRates :=
  match resp with
  | Response.clientError _ => Except.ok []
  | Response.badJsonBody msg => Except.error (PyError.valueError msg)
  | Response.jsonBody v => parse_response v date

/-! ### Calendar dates

`datetime.now()` is a naive local datetime; `datetime.now() - timedelta(days=i)`
has the calendar date lying `i` days before today's, and
`.strftime("%d.%m.%Y")` renders it as zero-padded day, dot, zero-padded month,
dot, decimal year. -/

/-- A Gregorian calendar date, the date part of a Python `datetime`. -/
structure PyDate where
  year : Nat
  month : Nat
  day : Nat
deriving DecidableEq

/-- Gregorian leap-year rule (as in Python's `calendar.isleap`). -/
def isLeap (y : Nat) : Bool :=
  (y % 4 == 0 && y % 100 != 0) || y % 400 == 0

/-- Number of days in a month. -/
def daysInMonth (y m : Nat) : Nat :=
  if m = 2 then (if isLeap y then 29 else 28)
  else if m = 4 ∨ m = 6 ∨ m = 9 ∨ m = 11 then 30
  else 31

/-- A well-formed calendar date (`datetime` enforces this on construction). -/
def ValidDate (t : PyDate) : Prop :=
  1 ≤ t.year ∧ 1 ≤ t.month ∧ t.month ≤ 12 ∧ 1 ≤ t.day ∧
    t.day ≤ daysInMonth t.year t.month

instance (t : PyDate) : Decidable (ValidDate t) := by
  unfold ValidDate; infer_instance

/-- The calendar date one day earlier: `(now - timedelta(days=1)).date()`. -/
def predDay (t : PyDate) : PyDate :=
  if 2 ≤ t.day then ⟨t.year, t.month, t.day - 1⟩
  else if 2 ≤ t.month then ⟨t.year, t.month - 1, daysInMonth t.year (t.month - 1)⟩
  else ⟨t.year - 1, 12, 31⟩

/-- A measure strictly decreasing along `predDay`, used to separate the
generated dates. -/
def toOrd (t : PyDate) : Nat :=
  t.year * 372 + t.month * 31 + t.day

/-- Zero-padded two-digit rendering, as `strftime` `%d` / `%m` produce for
values below 100. -/
def pad2 (n : Nat) : List Char :=
  [Nat.digitChar (n / 10), Nat.digitChar (n % 10)]

/-- Decimal digits of `n`, most significant first, with explicit fuel
(`decDigitsAux n n` is the full numeral of a positive `n`). -/
def decDigitsAux : Nat → Nat → List Char
  | 0, _ => []
  | _ + 1, 0 => []
  | fuel + 1, n + 1 =>
      decDigitsAux fuel ((n + 1) / 10) ++ [Nat.digitChar ((n + 1) % 10)]

/-- Decimal rendering of a year, as `strftime` `%Y` produces on years with at
least one digit (no padding: years in this program have four digits). -/
def decString (y : Nat) : List Char :=
  if y = 0 then ['0'] else decDigitsAux y y

/-- The numeric value of a digit character, used to read a rendered numeral
back. -/
def charVal (c : Char) : Nat := c.toNat - 48

/-- The number denoted by a most-significant-first digit string. -/
def valueOf (l : List Char) : Nat :=
  l.foldl (fun acc c => 10 * acc + charVal c) 0

/-- `date.strftime("%d.%m.%Y")`. -/
def formatDate (t : PyDate) : String :=
  String.mk (pad2 t.day ++ '.' :: pad2 t.month ++ '.' :: decString t.year)

/-- The list comprehension
`[(datetime.now() - timedelta(days=i)).strftime("%d.%m.%Y") for i in range(days)]`,
with `now` the date part of the wall clock at the call. -/
def dateRange (now : PyDate) (days : Nat) : List String :=
  (List.range days).map (fun i => formatDate (predDay^[i] now))

/-! ### The aggregation service -/

/-- `await asyncio.gather(*tasks)` (default `return_exceptions=False`): if
every task returns, the list of results in task order; if some task raises,
the gather raises.  Which exception propagates when several tasks raise is
scheduler-dependent; this model resolves the nondeterminism to the first task
in list order, and no theorem below depends on that choice. -/
def gather {α : Type} : List (Except PyError α) → Except PyError (List α)
  | [] => Except.ok []
  | t :: ts =>
      match t with
      | Except.error e => Except.error e
      | Except.ok v =>
          match gather ts with
          | Except.error e => Except.error e
          | Except.ok vs => Except.ok (v :: vs)

/-- `CurrencyRatesService.get_rates_for_days(days)`, parameterised by the
fetcher's behaviour on each date string and by today's calendar date.
The bounds check raises `ValueError` before the date range, the tasks or the
gather are formed; then one fetch per generated date is gathered and the
falsy (empty-dict) results are filtered out. -/
def get_rates_for_days (fetch : String → Except PyError DailyRates)
    (now : PyDate) (days : Int) : Except PyError (List DailyRates) :=
  if days < 1 ∨ 10 < days then
    Except.error (PyError.valueError "Number of days must be between 1 and 10")
  else
    match gather ((dateRange now days.toNat).map fetch) with
    | Except.error e => Except.error e
    | Except.ok results => Except.ok (results.filter (fun r => !r.isEmpty))

/-- A one-day result used to instantiate theorems on concrete inputs. -/
def stubDaily : DailyRates :=
  [("12.10.2026", [("EUR", ⟨Json.null, Json.null⟩)])]

/-- A deterministic stub rate source returning `stubDaily` for every date. -/
def stubFetch : String → Except PyError DailyRates :=
  fun _ => Except.ok stubDaily

/-! ## Lemmas about `gather` and the service -/

theorem gather_ok_iff {α : Type} (l : List (Except PyError α)) (r : List α) :
    gather l = Except.ok r ↔ l = r.map Except.ok := by
  constructor
  · intro h
    induction l generalizing r with
    | nil =>
        unfold gather at h
        cases r with
        | nil => rfl
        | cons v vs => simp at h
    | cons t ts ih =>
        unfold gather at h
        cases t with
        | error e => simp at h
        | ok v =>
            cases hg : gather ts with
            | error e => rw [hg] at h; simp at h
            | ok vs =>
                rw [hg] at h
                cases r with
                | nil => simp at h
                | cons w ws =>
                    simp only [Except.ok.injEq, List.cons.injEq] at h
                    obtain ⟨hv, hw⟩ := h
                    subst hv
                    subst hw
                    simp [List.map, ih vs hg]
  · intro h
    subst h
    induction r with
    | nil => rfl
    | cons v vs ih => simp [gather, ih]

/-- Unpacking a successful `get_rates_for_days` run: the per-date fetches all
returned (in the order of `dateRange`) and the output is their
empty-dict-filtered list. -/
theorem get_rates_ok_spec (days : Int) (h1 : 1 ≤ days) (h2 : days ≤ 10)
    (fetch : String → Except PyError DailyRates) (now : PyDate)
    (l : List DailyRates)
    (h : get_rates_for_days fetch now days = Except.ok l) :
    ∃ results : List DailyRates,
      (dateRange now days.toNat).map fetch = results.map Except.ok ∧
      l = results.filter (fun r => !r.isEmpty) := by
  unfold get_rates_for_days at h
  rw [if_neg (by omega)] at h
  cases hg : gather ((dateRange now days.toNat).map fetch) with
  | error e => rw [hg] at h; simp at h
  | ok results =>
      rw [hg] at h
      simp only [Except.ok.injEq] at h
      exact ⟨results, (gather_ok_iff _ _).mp hg, h.symm⟩

/-- **C1.** For every integer `days` outside `[1, 10]`,
`get_rates_for_days days` raises `ValueError` synchronously: the result is the
same `ValueError` for every fetcher behaviour and every current date, so no
date range is computed and no fetch is performed. -/
theorem get_rates_for_days_invalid (days : Int) (h : days < 1 ∨ 10 < days)
    (fetch : String → Except PyError DailyRates) (now : PyDate) :
    get_rates_for_days fetch now days =
      Except.error (PyError.valueError "Number of days must be between 1 and 10") := by
  unfold get_rates_for_days
  rw [if_pos h]

/-- Witness for C1 at `days = 11`. -/
theorem get_rates_for_days_invalid_witness :
    ((11 : Int) < 1 ∨ 10 < (11 : Int)) ∧
      get_rates_for_days (fun _ => Except.ok []) ⟨2026, 10, 12⟩ 11 =
        Except.error (PyError.valueError "Number of days must be between 1 and 10") :=
  ⟨Or.inr (by norm_num), get_rates_for_days_invalid 11 (Or.inr (by norm_num)) _ _⟩

/-- **C2.** For every `days` in `[1, 10]` and every rate source, a successful
`get_rates_for_days` result has at most `days` elements, every element is a
non-empty dict, and every element is the fetched result of one of the
generated dates (so a date whose fetch was recovered to the empty dict, or
produced no EUR/USD data, contributes nothing). -/
theorem get_rates_for_days_bounded (days : Int) (h1 : 1 ≤ days) (h2 : days ≤ 10)
    (fetch : String → Except PyError DailyRates) (now : PyDate)
    (l : List DailyRates)
    (h : get_rates_for_days fetch now days = Except.ok l) :
    l.length ≤ days.toNat ∧
      ∀ r ∈ l, r ≠ [] ∧ ∃ d ∈ dateRange now days.toNat, fetch d = Except.ok r := by
  obtain ⟨results, hmap, hfil⟩ := get_rates_ok_spec days h1 h2 fetch now l h
  constructor
  · have hlen : (dateRange now days.toNat).length = results.length := by
      have := congrArg List.length hmap
      simpa using this
    have hdl : (dateRange now days.toNat).length = days.toNat := by
      simp [dateRange]
    calc l.length ≤ results.length := by
          rw [hfil]; exact List.length_filter_le _ _
    _ = days.toNat := by omega
  · intro r hr
    rw [hfil] at hr
    have hrmem := List.mem_of_mem_filter hr
    have hrne : r ≠ [] := by
      have hp := List.of_mem_filter hr
      intro hnil
      subst hnil
      simp at hp
    refine ⟨hrne, ?_⟩
    have hok : Except.ok r ∈ (dateRange now days.toNat).map fetch := by
      rw [hmap]
      exact List.mem_map_of_mem _ hrmem
    obtain ⟨d, hd, hfd⟩ := List.mem_map.mp hok
    exact ⟨d, hd, hfd⟩

/-- **C3.** For every `days` in `[1, 10]`, a successful `get_rates_for_days`
output is exactly the per-date results taken in `dateRange` order (the order
generated in step 1, most recent first) with the empty ones filtered out: the
order comes from the date list, not from completion order, which the
`gather` model abstracts away. -/
theorem get_rates_for_days_order (days : Int) (h1 : 1 ≤ days) (h2 : days ≤ 10)
    (fetch : String → Except PyError DailyRates) (now : PyDate)
    (l : List DailyRates)
    (h : get_rates_for_days fetch now days = Except.ok l) :
    ∃ results : List DailyRates,
      (dateRange now days.toNat).map fetch = results.map Except.ok ∧
      l = results.filter (fun r => !r.isEmpty) :=
  get_rates_ok_spec days h1 h2 fetch now l h

/-- All-empty per-date results are filtered to the empty list. -/
theorem filter_nonempty_replicate_nil (n : Nat) :
    (List.replicate n ([] : DailyRates)).filter (fun r => !r.isEmpty) = [] := by
  induction n with
  | zero => rfl
  | succ m ih => simp [List.replicate_succ, List.filter_cons, ih, List.isEmpty]

/-- **C7.** With the PrivatBank fetcher running against a network where every
request raises a transport error (`aiohttp.ClientError`), every per-date fetch
is recovered to the empty dict and `get_rates_for_days` returns the empty
list — not an error — for every valid `days` in `[1, 10]`. -/
theorem get_rates_for_days_all_failures (days : Int) (h1 : 1 ≤ days)
    (h2 : days ≤ 10) (now : PyDate) (msg : String → String) :
    get_rates_for_days
        (fun date => fetch_rates (Response.clientError (msg date)) date)
        now days = Except.ok [] := by
  unfold get_rates_for_days
  rw [if_neg (by omega)]
  have hg : gather ((dateRange now days.toNat).map
      (fun date => fetch_rates (Response.clientError (msg date)) date)) =
      Except.ok (List.replicate days.toNat ([] : DailyRates)) := by
    apply (gather_ok_iff _ _).mpr
    have hconst : ∀ L : List String,
        L.map (fun date => fetch_rates (Response.clientError (msg date)) date) =
          List.replicate L.length (Except.ok []) := by
      intro L
      induction L with
      | nil => rfl
      | cons a l ih => simp [fetch_rates, List.replicate_succ, ih]
    rw [hconst]
    simp [dateRange, List.map_replicate]
  rw [hg]
  exact congrArg Except.ok (filter_nonempty_replicate_nil days.toNat)

/-- Witness for C7 at `days = 3`. -/
theorem get_rates_for_days_all_failures_witness :
    (1 ≤ (3 : Int)) ∧ ((3 : Int) ≤ 10) ∧
      get_rates_for_days
          (fun date => fetch_rates (Response.clientError ("conn refused " ++ date)) date)
          ⟨2026, 10, 12⟩ 3 = Except.ok [] :=
  ⟨by norm_num, by norm_num,
    get_rates_for_days_all_failures 3 (by norm_num) (by norm_num) ⟨2026, 10, 12⟩
      (fun date => "conn refused " ++ date)⟩

/-- Witness for C2 at `days = 2` with the stub fetcher. -/
theorem get_rates_for_days_bounded_witness :
    ((1 : Int) ≤ 2 ∧ (2 : Int) ≤ 10 ∧
      get_rates_for_days stubFetch ⟨2026, 10, 12⟩ 2 =
        Except.ok [stubDaily, stubDaily]) ∧
    ([stubDaily, stubDaily].length ≤ (2 : Int).toNat ∧
      ∀ r ∈ [stubDaily, stubDaily], r ≠ [] ∧
        ∃ d ∈ dateRange ⟨2026, 10, 12⟩ (2 : Int).toNat,
          stubFetch d = Except.ok r) :=
  ⟨⟨by norm_num, by norm_num, rfl⟩,
    get_rates_for_days_bounded 2 (by norm_num) (by norm_num) stubFetch
      ⟨2026, 10, 12⟩ [stubDaily, stubDaily] rfl⟩

/-- Witness for C3 at `days = 2` with the stub fetcher. -/
theorem get_rates_for_days_order_witness :
    ((1 : Int) ≤ 2 ∧ (2 : Int) ≤ 10 ∧
      get_rates_for_days stubFetch ⟨2026, 10, 12⟩ 2 =
        Except.ok [stubDaily, stubDaily]) ∧
    ∃ results : List DailyRates,
      (dateRange ⟨2026, 10, 12⟩ (2 : Int).toNat).map stubFetch =
        results.map Except.ok ∧
      [stubDaily, stubDaily] = results.filter (fun r => !r.isEmpty) :=
  ⟨⟨by norm_num, by norm_num, rfl⟩,
    get_rates_for_days_order 2 (by norm_num) (by norm_num) stubFetch
      ⟨2026, 10, 12⟩ [stubDaily, stubDaily] rfl⟩

/-! ## Lemmas about the parser -/

theorem dictFind_dictInsert_self (m : List (String × RateRecord)) (k : String)
    (v : RateRecord) : dictFind (dictInsert m k v) k = some v := by
  induction m with
  | nil => simp [dictInsert, dictFind]
  | cons p ps ih =>
      by_cases hpq : p.1 = k
      · simp [dictInsert, dictFind, hpq]
      · simp [dictInsert, dictFind, hpq, ih]

theorem dictFind_dictInsert_other (m : List (String × RateRecord))
    (k k' : String) (v : RateRecord) (h : k' ≠ k) :
    dictFind (dictInsert m k v) k' = dictFind m k' := by
  have hkk : ¬ k = k' := fun hx => h hx.symm
  induction m with
  | nil => simp [dictInsert, dictFind, hkk]
  | cons p ps ih =>
      by_cases hpq : p.1 = k
      · have hpk' : ¬ p.1 = k' := by rw [hpq]; exact hkk
        simp [dictInsert, dictFind, hpq, hpk', hkk]
      · by_cases hpq' : p.1 = k'
        · simp [dictInsert, dictFind, hpq, hpq', h]
        · simp [dictInsert, dictFind, hpq, hpq', ih]

/-- Anything in an inserted dict was already there or is the inserted pair. -/
theorem mem_dictInsert (m : List (String × RateRecord)) (k : String)
    (v : RateRecord) (q : String × RateRecord) (h : q ∈ dictInsert m k v) :
    q ∈ m ∨ q = (k, v) := by
  induction m with
  | nil => simp [dictInsert] at h; exact Or.inr h
  | cons p ps ih =>
      by_cases hpq : p.1 = k
      · rw [dictInsert, if_pos hpq] at h
        rcases List.mem_cons.mp h with h' | h'
        · exact Or.inr h'
        · exact Or.inl (List.mem_cons_of_mem p h')
      · rw [dictInsert, if_neg hpq] at h
        rcases List.mem_cons.mp h with h' | h'
        · exact Or.inl (h' ▸ List.mem_cons_self p ps)
        · rcases ih h' with h'' | h''
          · exact Or.inl (List.mem_cons_of_mem p h'')
          · exact Or.inr h''

/-- A loop-body step on a non-matching or currency-less object entry leaves
`rates` unchanged. -/
theorem processEntry_no_match (rates : List (String × RateRecord))
    (fields : List (String × Json))
    (h : isEurUsd (pyDictGet fields "currency") = false) :
    processEntry rates (Json.obj fields) = Except.ok rates := by
  cases hcur : pyDictGet fields "currency" with
  | str c =>
      have h' : (c == "EUR" || c == "USD") = false := by
        rw [hcur] at h
        simpa [isEurUsd] using h
      simp [processEntry, hcur, h']
  | null => simp [processEntry, hcur]
  | bool b => simp [processEntry, hcur]
  | num q => simp [processEntry, hcur]
  | arr elems => simp [processEntry, hcur]
  | obj fs => simp [processEntry, hcur]

/-- A loop-body step on a matching entry stores `recordOf fields` under the
currency string. -/
theorem processEntry_match (rates : List (String × RateRecord))
    (fields : List (String × Json)) (c : String)
    (hcur : pyDictGet fields "currency" = Json.str c)
    (hc : (c == "EUR" || c == "USD") = true) :
    processEntry rates (Json.obj fields) =
      Except.ok (dictInsert rates c (recordOf fields)) := by
  simp [processEntry, hcur, hc]

/-- The loop keeps the key-set invariant: every key it ever stores is `"EUR"`
or `"USD"`. -/
theorem parseEntriesFrom_keys (entries : List Json) :
    ∀ init rates, (∀ q ∈ init, q.1 = "EUR" ∨ q.1 = "USD") →
      parseEntriesFrom init entries = Except.ok rates →
      ∀ q ∈ rates, q.1 = "EUR" ∨ q.1 = "USD" := by
  induction entries with
  | nil =>
      intro init rates hinv h
      simp only [parseEntriesFrom, Except.ok.injEq] at h
      exact h ▸ hinv
  | cons e rest ih =>
      intro init rates hinv h
      cases hpe : processEntry init e with
      | error err => rw [parseEntriesFrom, hpe] at h; simp at h
      | ok init' =>
          rw [parseEntriesFrom, hpe] at h
          refine ih init' rates ?_ h
          intro q hq
          cases e with
          | obj fields =>
              cases hcur : pyDictGet fields "currency" with
              | str c =>
                  by_cases hc : (c == "EUR" || c == "USD") = true
                  · rw [processEntry_match init fields c hcur hc] at hpe
                    simp only [Except.ok.injEq] at hpe
                    rcases mem_dictInsert init c (recordOf fields) q
                        (hpe ▸ hq) with hm | hqe
                    · exact hinv q hm
                    · rw [hqe]
                      simpa using hc
                  · have hfc : isEurUsd (pyDictGet fields "currency") = false := by
                      rw [hcur]
                      simpa [isEurUsd] using hc
                    rw [processEntry_no_match init fields hfc] at hpe
                    simp only [Except.ok.injEq] at hpe
                    exact hinv q (hpe ▸ hq)
              | null =>
                  rw [processEntry_no_match init fields (by rw [hcur]; rfl)]
                    at hpe
                  simp only [Except.ok.injEq] at hpe
                  exact hinv q (hpe ▸ hq)
              | bool b =>
                  rw [processEntry_no_match init fields (by rw [hcur]; rfl)]
                    at hpe
                  simp only [Except.ok.injEq] at hpe
                  exact hinv q (hpe ▸ hq)
              | num r =>
                  rw [processEntry_no_match init fields (by rw [hcur]; rfl)]
                    at hpe
                  simp only [Except.ok.injEq] at hpe
                  exact hinv q (hpe ▸ hq)
              | arr elems =>
                  rw [processEntry_no_match init fields (by rw [hcur]; rfl)]
                    at hpe
                  simp only [Except.ok.injEq] at hpe
                  exact hinv q (hpe ▸ hq)
              | obj fs =>
                  rw [processEntry_no_match init fields (by rw [hcur]; rfl)]
                    at hpe
                  simp only [Except.ok.injEq] at hpe
                  exact hinv q (hpe ▸ hq)
          | null => simp [processEntry] at hpe
          | bool b => simp [processEntry] at hpe
          | num r => simp [processEntry] at hpe
          | str s => simp [processEntry] at hpe
          | arr elems => simp [processEntry] at hpe

/-- **C5.** The parser keeps exactly the entries whose `currency` field is the
string `"EUR"` or `"USD"`: (a) running the loop is the same as running it on
the array with all other object entries discarded, and (b) every per-date
dict a successful `_parse_response` produces has its currency key set inside
`{"EUR", "USD"}`. -/
theorem parse_response_eur_usd_only :
    (∀ (init : List (String × RateRecord)) (entries : List Json),
        parseEntriesFrom init entries =
          parseEntriesFrom init (entries.filter keptEntry)) ∧
    (∀ (data : Json) (date : String) (dr : DailyRates),
        parse_response data date = Except.ok dr →
        ∀ p ∈ dr, ∀ q ∈ p.2, q.1 = "EUR" ∨ q.1 = "USD") := by
  constructor
  · intro init entries
    induction entries generalizing init with
    | nil => rfl
    | cons e rest ih =>
        cases e with
        | obj fields =>
            cases hk : isEurUsd (pyDictGet fields "currency") with
            | true =>
                have hfil : keptEntry (Json.obj fields) = true := by
                  simp [keptEntry, hk]
                rw [List.filter_cons_of_pos hfil]
                unfold isEurUsd at hk
                revert hk
                cases hcur : pyDictGet fields "currency" with
                | str c =>
                    intro hk
                    rw [parseEntriesFrom, parseEntriesFrom,
                      processEntry_match _ fields c hcur hk]
                    exact ih _
                | null => intro hk; simp at hk
                | bool b => intro hk; simp at hk
                | num r => intro hk; simp at hk
                | arr elems => intro hk; simp at hk
                | obj fs => intro hk; simp at hk
            | false =>
                have hfil : keptEntry (Json.obj fields) = false := by
                  simp [keptEntry, hk]
                rw [List.filter_cons_of_neg (by simp [hfil])]
                rw [parseEntriesFrom, processEntry_no_match init fields hk]
                exact ih init
        | null => rfl
        | bool b => rfl
        | num r => rfl
        | str s => rfl
        | arr elems => rfl
  · intro data date dr h
    cases data with
    | obj fields =>
        simp only [parse_response] at h
        cases hit : pyIter (pyDictGetD fields "exchangeRate" (Json.arr []))
            with
        | error e => rw [hit] at h; simp at h
        | ok entries =>
            rw [hit] at h
            simp only [] at h
            cases hpe : parseEntries entries with
            | error err => rw [hpe] at h; simp at h
            | ok rates =>
                rw [hpe] at h
                simp only [] at h
                intro p hp q hq
                by_cases hemp : rates.isEmpty = true
                · rw [if_pos hemp] at h
                  simp only [Except.ok.injEq] at h
                  rw [← h] at hp
                  simp at hp
                · rw [if_neg hemp] at h
                  simp only [Except.ok.injEq] at h
                  rw [← h] at hp
                  have hpq : p = (date, rates) := by simpa using hp
                  have hq' : q ∈ rates := by rw [hpq] at hq; exact hq
                  exact parseEntriesFrom_keys entries [] rates
                    (by intro x hx; simp at hx) hpe q hq'
    | null => simp [parse_response] at h
    | bool b => simp [parse_response] at h
    | num r => simp [parse_response] at h
    | str s => simp [parse_response] at h
    | arr elems => simp [parse_response] at h

/-- Witness for C5: an array with a GBP and a EUR entry yields only the EUR
entry, and its key satisfies the key-set property. -/
theorem parse_response_eur_usd_only_witness :
    (parse_response (Json.obj [("exchangeRate", Json.arr
        [Json.obj [("currency", Json.str "GBP"), ("saleRate", Json.num 47)],
         Json.obj [("currency", Json.str "EUR"),
           ("saleRate", Json.num 43)]])]) "12.10.2026" =
      Except.ok [("12.10.2026",
        [("EUR", ⟨Json.num 43, Json.null⟩)])]) ∧
    ("EUR" = "EUR" ∨ "EUR" = "USD") :=
  ⟨rfl,
    parse_response_eur_usd_only.2
      (Json.obj [("exchangeRate", Json.arr
        [Json.obj [("currency", Json.str "GBP"), ("saleRate", Json.num 47)],
         Json.obj [("currency", Json.str "EUR"),
           ("saleRate", Json.num 43)]])]) "12.10.2026"
      [("12.10.2026", [("EUR", ⟨Json.num 43, Json.null⟩)])] rfl
      ("12.10.2026", [("EUR", ⟨Json.num 43, Json.null⟩)]) (by simp)
      ("EUR", ⟨Json.num 43, Json.null⟩) (by simp)⟩

/-- Counterexample to C6 as stated: a delivered body that parses to a JSON
array (well-formed JSON of the wrong shape — `data.get` needs a dict) raises
`AttributeError` inside `fetch_rates`; the `except aiohttp.ClientError` clause
does not catch it, so the error propagates instead of becoming the empty
result. -/
theorem fetch_rates_malformed_propagates_cex :
    fetch_rates (Response.jsonBody (Json.arr [])) "12.10.2026" =
      Except.error (PyError.attributeError "no attribute get") ∧
    fetch_rates (Response.jsonBody (Json.arr [])) "12.10.2026" ≠
      Except.ok [] := by
  constructor
  · rfl
  · intro h
    simp [fetch_rates, parse_response] at h

/-- **C6 (amended).** `fetch_rates` recovers to the empty dict exactly for
`aiohttp.ClientError` transport failures (connection errors, non-2xx statuses
and content-type mismatches).  A body that is invalid JSON despite a JSON
content type raises `json.JSONDecodeError` (a `ValueError`), and a parsed body
that is not a JSON object raises `AttributeError`; both escape `fetch_rates`
to the aggregation layer rather than being converted to the empty result. -/
theorem fetch_rates_error_handling :
    (∀ msg date, fetch_rates (Response.clientError msg) date =
        Except.ok []) ∧
    (∀ msg date, fetch_rates (Response.badJsonBody msg) date =
        Except.error (PyError.valueError msg)) ∧
    (∀ v date, isObj v = false →
        fetch_rates (Response.jsonBody v) date =
          Except.error (PyError.attributeError "no attribute get")) := by
  refine ⟨fun msg date => rfl, fun msg date => rfl, ?_⟩
  intro v date hv
  cases v with
  | obj fields => simp [isObj] at hv
  | null => rfl
  | bool b => rfl
  | num q => rfl
  | str s => rfl
  | arr elems => rfl

/-- Witness for the amended C6 at concrete responses. -/
theorem fetch_rates_error_handling_witness :
    (fetch_rates (Response.clientError "connection reset") "12.10.2026" =
      Except.ok []) ∧
    (fetch_rates (Response.badJsonBody "Expecting value") "12.10.2026" =
      Except.error (PyError.valueError "Expecting value")) ∧
    (isObj (Json.num 5) = false) ∧
    (fetch_rates (Response.jsonBody (Json.num 5)) "12.10.2026" =
      Except.error (PyError.attributeError "no attribute get")) :=
  ⟨fetch_rates_error_handling.1 "connection reset" "12.10.2026",
   fetch_rates_error_handling.2.1 "Expecting value" "12.10.2026",
   rfl,
   fetch_rates_error_handling.2.2 (Json.num 5) "12.10.2026" rfl⟩

/-- `dict.get` returns the default when no field has the requested key. -/
theorem pyDictGet_absent (fields : List (String × Json)) (k : String)
    (h : ∀ p ∈ fields, p.1 ≠ k) : pyDictGet fields k = Json.null := by
  unfold pyDictGet
  induction fields with
  | nil => rfl
  | cons p ps ih =>
      rw [pyDictGetD, if_neg (h p (List.mem_cons_self p ps))]
      exact ih (fun q hq => h q (List.mem_cons_of_mem p hq))

/-- **C8.** For a kept entry (an object whose `currency` is `"EUR"` or
`"USD"`), the loop stores `recordOf fields`; and when the entry has no
`saleRate` (resp. `purchaseRate`) field, the stored record's `sale` (resp.
`purchase`) is `None` — never a number such as `0`. -/
theorem absent_rate_fields_preserved (fields : List (String × Json))
    (rates : List (String × RateRecord)) (c : String)
    (hcur : pyDictGet fields "currency" = Json.str c)
    (hc : (c == "EUR" || c == "USD") = true) :
    processEntry rates (Json.obj fields) =
      Except.ok (dictInsert rates c (recordOf fields)) ∧
    ((∀ p ∈ fields, p.1 ≠ "saleRate") →
      (recordOf fields).sale = Json.null ∧
        ∀ q : Rat, (recordOf fields).sale ≠ Json.num q) ∧
    ((∀ p ∈ fields, p.1 ≠ "purchaseRate") →
      (recordOf fields).purchase = Json.null ∧
        ∀ q : Rat, (recordOf fields).purchase ≠ Json.num q) := by
  refine ⟨processEntry_match rates fields c hcur hc, ?_, ?_⟩
  · intro habs
    have hnull := pyDictGet_absent fields "saleRate" habs
    constructor
    · simp [recordOf, hnull]
    · intro q
      simp [recordOf, hnull]
  · intro habs
    have hnull := pyDictGet_absent fields "purchaseRate" habs
    constructor
    · simp [recordOf, hnull]
    · intro q
      simp [recordOf, hnull]

/-- Witness for C8 on an entry carrying only `currency` and `purchaseRate`. -/
theorem absent_rate_fields_preserved_witness :
    (pyDictGet [("currency", Json.str "USD"), ("purchaseRate", Json.num 41)]
        "currency" = Json.str "USD") ∧
    (("USD" == "EUR" || "USD" == "USD") = true) ∧
    (∀ p ∈ [("currency", Json.str "USD"), ("purchaseRate", Json.num 41)],
        p.1 ≠ "saleRate") ∧
    ((recordOf [("currency", Json.str "USD"),
        ("purchaseRate", Json.num 41)]).sale = Json.null ∧
      ∀ q : Rat,
        (recordOf [("currency", Json.str "USD"),
          ("purchaseRate", Json.num 41)]).sale ≠ Json.num q) :=
  ⟨rfl, rfl, by simp,
    (absent_rate_fields_preserved
      [("currency", Json.str "USD"), ("purchaseRate", Json.num 41)] [] "USD"
      rfl rfl).2.1 (by simp)⟩

/-- Running the loop maps the key `c` to the record of the last `c`-entry of
the array (or leaves the initial binding when there is none). -/
theorem parseEntriesFrom_lastMatch (c : String) (hc : c = "EUR" ∨ c = "USD")
    (entries : List Json) :
    ∀ init rates, parseEntriesFrom init entries = Except.ok rates →
      dictFind rates c =
        (match lastMatch c entries with
         | some fs => some (recordOf fs)
         | none => dictFind init c) := by
  induction entries with
  | nil =>
      intro init rates h
      simp only [parseEntriesFrom, Except.ok.injEq] at h
      subst h
      simp [lastMatch]
  | cons e rest ih =>
      intro init rates h
      cases hpe : processEntry init e with
      | error err => rw [parseEntriesFrom, hpe] at h; simp at h
      | ok init' =>
          rw [parseEntriesFrom, hpe] at h
          rw [ih init' rates h]
          cases hlm : lastMatch c rest with
          | some fs => simp [lastMatch, hlm]
          | none =>
              simp only [lastMatch, hlm]
              cases e with
              | obj fields =>
                  cases hcur : pyDictGet fields "currency" with
                  | str s =>
                      by_cases hsc : s = c
                      · subst hsc
                        have hcb : (s == "EUR" || s == "USD") = true := by
                          rcases hc with h1 | h1 <;> simp [h1]
                        rw [processEntry_match init fields s hcur hcb] at hpe
                        simp only [Except.ok.injEq] at hpe
                        subst hpe
                        simp [matchesCurrency, hcur,
                          dictFind_dictInsert_self]
                      · have hmc : matchesCurrency c (Json.obj fields) =
                            none := by
                          simp [matchesCurrency, hcur, hsc]
                        rw [hmc]
                        by_cases hcb : (s == "EUR" || s == "USD") = true
                        · rw [processEntry_match init fields s hcur hcb] at hpe
                          simp only [Except.ok.injEq] at hpe
                          rw [← hpe]
                          exact dictFind_dictInsert_other init s c
                            (recordOf fields) (fun hx => hsc hx.symm)
                        · have hfc : isEurUsd (pyDictGet fields "currency") =
                              false := by
                            rw [hcur]
                            simpa [isEurUsd] using hcb
                          rw [processEntry_no_match init fields hfc] at hpe
                          simp only [Except.ok.injEq] at hpe
                          rw [← hpe]
                  | null =>
                      rw [show matchesCurrency c (Json.obj fields) = none by
                        simp [matchesCurrency, hcur]]
                      rw [processEntry_no_match init fields
                        (by rw [hcur]; rfl)] at hpe
                      simp only [Except.ok.injEq] at hpe
                      rw [← hpe]
                  | bool b =>
                      rw [show matchesCurrency c (Json.obj fields) = none by
                        simp [matchesCurrency, hcur]]
                      rw [processEntry_no_match init fields
                        (by rw [hcur]; rfl)] at hpe
                      simp only [Except.ok.injEq] at hpe
                      rw [← hpe]
                  | num r =>
                      rw [show matchesCurrency c (Json.obj fields) = none by
                        simp [matchesCurrency, hcur]]
                      rw [processEntry_no_match init fields
                        (by rw [hcur]; rfl)] at hpe
                      simp only [Except.ok.injEq] at hpe
                      rw [← hpe]
                  | arr elems =>
                      rw [show matchesCurrency c (Json.obj fields) = none by
                        simp [matchesCurrency, hcur]]
                      rw [processEntry_no_match init fields
                        (by rw [hcur]; rfl)] at hpe
                      simp only [Except.ok.injEq] at hpe
                      rw [← hpe]
                  | obj fs =>
                      rw [show matchesCurrency c (Json.obj fields) = none by
                        simp [matchesCurrency, hcur]]
                      rw [processEntry_no_match init fields
                        (by rw [hcur]; rfl)] at hpe
                      simp only [Except.ok.injEq] at hpe
                      rw [← hpe]
              | null => simp [processEntry] at hpe
              | bool b => simp [processEntry] at hpe
              | num r => simp [processEntry] at hpe
              | str s => simp [processEntry] at hpe
              | arr elems => simp [processEntry] at hpe

/-- **C10.** When the `exchangeRate` array holds several entries for the same
watched currency on one date, the parsed dict maps that currency to the
record built from the last such entry: each later match silently overwrites
the earlier record. -/
theorem parse_duplicate_currency_last_wins (entries : List Json) (c : String)
    (fs : List (String × Json)) (rates : List (String × RateRecord))
    (hc : c = "EUR" ∨ c = "USD")
    (hp : parseEntries entries = Except.ok rates)
    (hl : lastMatch c entries = some fs) :
    dictFind rates c = some (recordOf fs) := by
  have h := parseEntriesFrom_lastMatch c hc entries [] rates hp
  rw [hl] at h
  exact h

/-- Witness for C10: two EUR entries; the second one's record survives. -/
theorem parse_duplicate_currency_last_wins_witness :
    ("EUR" = "EUR" ∨ "EUR" = "USD") ∧
    (parseEntries
        [Json.obj [("currency", Json.str "EUR"), ("saleRate", Json.num 30)],
         Json.obj [("currency", Json.str "EUR"), ("saleRate", Json.num 31)]] =
      Except.ok [("EUR", ⟨Json.num 31, Json.null⟩)]) ∧
    (lastMatch "EUR"
        [Json.obj [("currency", Json.str "EUR"), ("saleRate", Json.num 30)],
         Json.obj [("currency", Json.str "EUR"), ("saleRate", Json.num 31)]] =
      some [("currency", Json.str "EUR"), ("saleRate", Json.num 31)]) ∧
    dictFind [("EUR", ⟨Json.num 31, Json.null⟩)] "EUR" =
      some (recordOf [("currency", Json.str "EUR"),
        ("saleRate", Json.num 31)]) :=
  ⟨Or.inl rfl, rfl, rfl,
    parse_duplicate_currency_last_wins
      [Json.obj [("currency", Json.str "EUR"), ("saleRate", Json.num 30)],
       Json.obj [("currency", Json.str "EUR"), ("saleRate", Json.num 31)]]
      "EUR" [("currency", Json.str "EUR"), ("saleRate", Json.num 31)]
      [("EUR", ⟨Json.num 31, Json.null⟩)] (Or.inl rfl) rfl rfl⟩

/-! ## Lemmas about the calendar and the date range -/

theorem daysInMonth_bounds (y m : Nat) :
    28 ≤ daysInMonth y m ∧ daysInMonth y m ≤ 31 := by
  unfold daysInMonth
  split_ifs <;> omega

theorem daysInMonth_twelve (y : Nat) : daysInMonth y 12 = 31 := by
  simp [daysInMonth]

/-- One `predDay` step from a valid date with year at least 2 stays valid,
drops the year by at most one, and strictly decreases the measure. -/
theorem predDay_step (t : PyDate) (h : ValidDate t) (hy : 2 ≤ t.year) :
    ValidDate (predDay t) ∧ t.year - 1 ≤ (predDay t).year ∧
      toOrd (predDay t) + 1 ≤ toOrd t := by
  obtain ⟨h1, h2, h3, h4, h5⟩ := h
  have hb := daysInMonth_bounds t.year (t.month - 1)
  have hb12 := daysInMonth_twelve (t.year - 1)
  unfold predDay
  split_ifs with hd hm
  · refine ⟨⟨h1, h2, h3, ?_, ?_⟩, ?_, ?_⟩ <;> simp [toOrd] <;> omega
  · refine ⟨⟨h1, ?_, ?_, ?_, ?_⟩, ?_, ?_⟩ <;> simp [toOrd] <;> omega
  · refine ⟨⟨?_, ?_, ?_, ?_, ?_⟩, ?_, ?_⟩ <;> simp [toOrd, hb12] <;> omega

/-- Iterating `predDay` `k` times from a valid date with year above `k` stays
valid, keeps the year above `year - k`, and decreases the measure by at least
`k`. -/
theorem predDay_iter (k : Nat) (t : PyDate) (h : ValidDate t)
    (hk : k + 1 ≤ t.year) :
    ValidDate (predDay^[k] t) ∧ t.year - k ≤ (predDay^[k] t).year ∧
      toOrd (predDay^[k] t) + k ≤ toOrd t := by
  induction k generalizing t with
  | zero =>
      rw [Function.iterate_zero_apply]
      exact ⟨h, by omega, by omega⟩
  | succ n ih =>
      obtain ⟨hv0, hy0, ho0⟩ := predDay_step t h (by omega)
      obtain ⟨hv, hy1, ho1⟩ := ih (predDay t) hv0 (by omega)
      rw [Function.iterate_succ_apply]
      exact ⟨hv, by omega, by omega⟩

theorem digitChar_inj :
    ∀ a < 10, ∀ b < 10, Nat.digitChar a = Nat.digitChar b → a = b := by
  decide

theorem pad2_inj (a b : Nat) (ha : a < 100) (hb : b < 100)
    (h : pad2 a = pad2 b) : a = b := by
  unfold pad2 at h
  simp only [List.cons.injEq, and_true] at h
  obtain ⟨e1, e2⟩ := h
  have q1 := digitChar_inj (a / 10) (by omega) (b / 10) (by omega) e1
  have q2 := digitChar_inj (a % 10) (by omega) (b % 10) (by omega) e2
  omega

theorem valueOf_append (l : List Char) (c : Char) :
    valueOf (l ++ [c]) = 10 * valueOf l + charVal c := by
  unfold valueOf
  rw [List.foldl_append]
  rfl

theorem digitChar_val : ∀ d < 10, charVal (Nat.digitChar d) = d := by decide

theorem valueOf_decDigitsAux (fuel : Nat) :
    ∀ n, n ≤ fuel → valueOf (decDigitsAux fuel n) = n := by
  induction fuel with
  | zero =>
      intro n hn
      have hz : n = 0 := by omega
      subst hz
      rfl
  | succ f ih =>
      intro n hn
      cases n with
      | zero => rfl
      | succ m =>
          rw [decDigitsAux, valueOf_append, ih ((m + 1) / 10) (by omega),
            digitChar_val ((m + 1) % 10) (by omega)]
          omega

theorem valueOf_decString (y : Nat) : valueOf (decString y) = y := by
  unfold decString
  split_ifs with h
  · subst h; rfl
  · exact valueOf_decDigitsAux y y (le_refl y)

theorem decString_inj (a b : Nat) (h : decString a = decString b) : a = b := by
  have ha := valueOf_decString a
  rw [h, valueOf_decString] at ha
  omega

/-- `strftime("%d.%m.%Y")` is injective on valid dates. -/
theorem formatDate_inj (s t : PyDate) (hs : ValidDate s) (ht : ValidDate t)
    (h : formatDate s = formatDate t) : s = t := by
  rcases s with ⟨ys, ms, ds⟩
  rcases t with ⟨yt, mt, dt⟩
  obtain ⟨hs1, hs2, hs3, hs4, hs5⟩ := hs
  obtain ⟨ht1, ht2, ht3, ht4, ht5⟩ := ht
  have hsb := (daysInMonth_bounds ys ms).2
  have htb := (daysInMonth_bounds yt mt).2
  have h' : pad2 ds ++ '.' :: pad2 ms ++ '.' :: decString ys =
      pad2 dt ++ '.' :: pad2 mt ++ '.' :: decString yt :=
    congrArg String.data h
  obtain ⟨hdm, h2⟩ := List.append_inj h' rfl
  injection h2 with _ h5
  obtain ⟨hd, h3⟩ := List.append_inj hdm rfl
  injection h3 with _ hm
  have ed : ds = dt := pad2_inj ds dt (by simp at hs5 hsb ⊢; omega)
    (by simp at ht5 htb ⊢; omega) hd
  have em : ms = mt := pad2_inj ms mt (by simp at hs3 ⊢; omega)
    (by simp at ht3 ⊢; omega) hm
  have ey : ys = yt := decString_inj ys yt h5
  rw [ed, em, ey]

/-- **C4.** For every `days` in `[1, 10]` (and a valid wall-clock date with a
realistic year), the date-range generation step produces exactly `days`
strings; the `i`-th is today minus `i` days (so the range is descending from
today with no gaps); the generated dates are pairwise distinct; and each is
formatted as zero-padded day, dot, zero-padded month, dot, decimal year. -/
theorem dateRange_spec (now : PyDate) (days : Nat) (h : ValidDate now)
    (hy : 10 ≤ now.year) (h1 : 1 ≤ days) (h2 : days ≤ 10) :
    (dateRange now days).length = days ∧
    (∀ i, i < days → (dateRange now days).get? i =
      some (formatDate (predDay^[i] now))) ∧
    (dateRange now days).Nodup ∧
    (∀ s ∈ dateRange now days, ∃ d m y, 1 ≤ d ∧ d ≤ 31 ∧ 1 ≤ m ∧ m ≤ 12 ∧
      1 ≤ y ∧ s = String.mk (pad2 d ++ '.' :: pad2 m ++ '.' :: decString y)) := by
  have key : ∀ i j, i < j → j < days →
      formatDate (predDay^[i] now) = formatDate (predDay^[j] now) → False := by
    intro i j hij hjd heq
    have hvi := predDay_iter i now h (by omega)
    have hvj := predDay_iter j now h (by omega)
    have heq' : predDay^[i] now = predDay^[j] now :=
      formatDate_inj _ _ hvi.1 hvj.1 heq
    have hsub : predDay^[j] now = predDay^[j - i] (predDay^[i] now) := by
      rw [← Function.iterate_add_apply]
      congr 1
      omega
    have hyi := hvi.2.1
    obtain ⟨_, _, ho⟩ := predDay_iter (j - i) (predDay^[i] now) hvi.1
      (by omega)
    rw [← hsub, ← heq'] at ho
    omega
  refine ⟨by simp [dateRange], ?_, ?_, ?_⟩
  · intro i hi
    unfold dateRange
    rw [List.get?_map, List.get?_range hi]
    rfl
  · unfold dateRange
    refine List.Nodup.map_on ?_ (List.nodup_range days)
    intro i hi j hj hf
    simp only [List.mem_range] at hi hj
    rcases Nat.lt_trichotomy i j with hij | hij | hij
    · exact ((key i j hij hj) hf).elim
    · exact hij
    · exact ((key j i hij hi) hf.symm).elim
  · intro s hs
    unfold dateRange at hs
    obtain ⟨i, hi, hfi⟩ := List.mem_map.mp hs
    simp only [List.mem_range] at hi
    obtain ⟨⟨v1, v2, v3, v4, v5⟩, _, _⟩ := predDay_iter i now h (by omega)
    have hd31 :=
      (daysInMonth_bounds (predDay^[i] now).year (predDay^[i] now).month).2
    exact ⟨(predDay^[i] now).day, (predDay^[i] now).month,
      (predDay^[i] now).year, v4, by omega, v2, v3, v1, by rw [← hfi]; rfl⟩

/-- Witness for C4 at `now = 12.10.2026`, `days = 3`. -/
theorem dateRange_spec_witness :
    (ValidDate ⟨2026, 10, 12⟩ ∧ 10 ≤ (PyDate.mk 2026 10 12).year ∧
      1 ≤ 3 ∧ 3 ≤ 10) ∧
    ((dateRange ⟨2026, 10, 12⟩ 3).length = 3 ∧
      (∀ i, i < 3 → (dateRange ⟨2026, 10, 12⟩ 3).get? i =
        some (formatDate (predDay^[i] ⟨2026, 10, 12⟩))) ∧
      (dateRange ⟨2026, 10, 12⟩ 3).Nodup ∧
      (∀ s ∈ dateRange ⟨2026, 10, 12⟩ 3, ∃ d m y, 1 ≤ d ∧ d ≤ 31 ∧ 1 ≤ m ∧
        m ≤ 12 ∧ 1 ≤ y ∧
        s = String.mk (pad2 d ++ '.' :: pad2 m ++ '.' :: decString y))) :=
  ⟨⟨by decide, by norm_num, by norm_num, by norm_num⟩,
    dateRange_spec ⟨2026, 10, 12⟩ 3 (by decide) (by norm_num) (by norm_num)
      (by norm_num)⟩

end Privat
